import Mathlib

/-!
Verification development for the ICT log maker: a shallow embedding of
`src/main.rs` (test catalog, measurement simulation, identifier generation,
panel assembly, log encoding, export state update), with theorems settling
the frozen claims. Randomness (`rand::thread_rng().gen_range`) is modelled
by passing the drawn values (or a sampler function) explicitly; `f32`
values are modelled as rationals; `u16` arithmetic is taken mod 2^16.
-/

namespace ICT

/-- Decimal digits of a natural number, most significant first; `fuel`
bounds the recursion depth (any `fuel ≥ n` is enough). Models Rust's
decimal integer rendering in `format!`. -/
def decAux : ℕ → ℕ → List Char
  | _, 0 => []
  | 0, _ => []
  | fuel + 1, n => decAux fuel (n / 10) ++ [Char.ofNat (48 + n % 10)]

/-- Decimal rendering of a natural number, as Rust `format!` prints it. -/
def decRepr (n : ℕ) : String :=
  if n = 0 then "0" else String.mk (decAux n n)

/-- Rust `format!("{:0w}", n)`: decimal rendering left-padded with zeros
to width `w` (wider numbers are printed in full). -/
def padNum (w n : ℕ) : String :=
  let s := decRepr n
  if s.length < w then String.mk (List.replicate (w - s.length) '0') ++ s else s

/-- Test type + limits (min, nom, max); `TType` in the source. -/
inductive TType
  | Pin : TType
  | Capacitor : ℚ → ℚ → ℚ → TType
  | Resistor : ℚ → ℚ → ℚ → TType

/-- `struct Test` from the source. -/
structure Test where
  name : String
  ttype : TType

/-- `Test::get_measurement`. The source draws
`rand::thread_rng().gen_range(lo..hi)`; the random generator is modelled by
the sampler `g`, whose value `g lo hi` is the number drawn from `lo..hi`
(a draw from `lo..hi` satisfies `lo ≤ g lo hi < hi`). -/
def Test.get_measurement (t : Test) (is_ok : Bool) (g : ℚ → ℚ → ℚ) : ℚ :=
  match t.ttype with
  | TType.Pin => 0
  | TType.Capacitor mn _ mx => if is_ok then g mn mx else g 0 mn
  | TType.Resistor mn _ mx => if is_ok then g mn mx else g 0 mn

/-- `populate_tests` from the source: one pin test, ten capacitor tests,
ten resistor tests. The random draws are passed in: `cnom i` is the drawn
capacitor nominal for test `i` (drawn from `1E-12..1E-6`), `cfmin i` and
`cfmax i` the tolerance factors (drawn from `0.7..0.9` and `1.1..1.3`),
and `rnom`, `rfmin`, `rfmax` likewise for resistors (`1E0..1E6`,
`0.95..0.99`, `1.01..1.05`). -/
def populate_tests (cnom cfmin cfmax rnom rfmin rfmax : ℕ → ℚ) : List Test :=
  Test.mk "pins" TType.Pin ::
    ((List.range 10).map (fun j =>
      Test.mk ("c" ++ padNum 2 (j + 1))
        (TType.Capacitor (cnom (j + 1) * cfmin (j + 1)) (cnom (j + 1))
          (cnom (j + 1) * cfmax (j + 1)))) ++
     (List.range 10).map (fun j =>
      Test.mk ("r" ++ padNum 2 (j + 1))
        (TType.Resistor (rnom (j + 1) * rfmin (j + 1)) (rnom (j + 1))
          (rnom (j + 1) * rfmax (j + 1)))))

/-- `struct TResult` from the source. -/
structure TResult where
  ok : Bool
  measured : ℚ

/-- `TResult::to_short`. -/
def TResult.to_short (r : TResult) : String :=
  if r.ok then "0" else "1"

/-- `TResult::to_str`. -/
def TResult.to_str (r : TResult) : String :=
  if r.ok then "00" else "01"

/-- `struct Board` from the source. -/
structure Board where
  DMC : String
  index : ℕ
  results : List TResult

/-- The loop body of `Board::get_result`: return "01" at the first failed
result, "00" if none fails. -/
def getResultAux : List TResult → String
  | [] => "00"
  | r :: rs => if !r.ok then "01" else getResultAux rs

/-- `Board::get_result`. -/
def Board.get_result (b : Board) : String :=
  getResultAux b.results

/-- `struct MultiBoard` from the source. -/
structure MultiBoard where
  DMC : String
  boards : List Board

/-- `struct MyApp` from the source. `DateTime<Local>` values are modelled
as integers (`last_export`); `PathBuf` as a string. `last_id` is a `u16`
in the source: it is kept as a natural number and every `u16` operation on
it is taken mod 2^16. -/
structure MyApp where
  output_dir : String
  enabled : Bool
  test_yield : ℕ
  panels : ℕ
  testing_time : ℤ
  start_time : String
  last_export : ℤ
  last_id : ℕ
  tests : List Test
  multiboard : MultiBoard

/-- `MyApp::its_time`; `now` models `Local::now()`. -/
def MyApp.its_time (app : MyApp) (now : ℤ) : Bool :=
  app.enabled && decide (now - app.last_export > app.testing_time)

/-- `MyApp::should_pass`; `draw` models `rand::thread_rng().gen_range(0..100)`. -/
def MyApp.should_pass (app : MyApp) (draw : ℕ) : Bool :=
  decide (draw < app.test_yield)

/-- `MyApp::generate_results`: one `TResult` per catalog test, in catalog
order. `pd k` models the pass/fail draw (`gen_range(0..100)`) for the
`k`-th test, `md k` the measurement sampler for the `k`-th test. -/
def MyApp.generate_results (app : MyApp) (pd : ℕ → ℕ) (md : ℕ → ℚ → ℚ → ℚ) :
    List TResult :=
  app.tests.enum.map (fun p =>
    TResult.mk (app.should_pass (pd p.1))
      (p.2.get_measurement (app.should_pass (pd p.1)) (md p.1)))

/-- `MyApp::generate_DMC`: `format!("L{YY:04.0}{DoY:03.0}{:05.0}TB0001010111",
self.last_id + index as u16)`. `year` and `doy` model
`Local::now().date_naive()`; the `u16` sum is taken mod 2^16. -/
def MyApp.generate_DMC (app : MyApp) (year doy index : ℕ) : String :=
  "L" ++ padNum 4 year ++ padNum 3 doy ++ padNum 5 ((app.last_id + index) % 65536)
    ++ "TB0001010111"

/-- `MyApp::generate_multiboard`: panel DMC from offset 0, then one board
per `i in 0..panels` with DMC offset `i` and index `i + 1`. `pd i` and
`md i` are the draw streams used for board `i`'s results. -/
def MyApp.generate_multiboard (app : MyApp) (year doy : ℕ)
    (pd : ℕ → ℕ → ℕ) (md : ℕ → ℕ → ℚ → ℚ → ℚ) : MyApp :=
  { app with
    multiboard :=
      MultiBoard.mk (app.generate_DMC year doy 0)
        ((List.range app.panels).map (fun i =>
          Board.mk (app.generate_DMC year doy i) (i + 1)
            (app.generate_results (pd i) (md i)))) }

/-- `MyApp::update_fields`: set `last_export` to the current time and add
the panel count to the `u16` counter `last_id` (mod 2^16). -/
def MyApp.update_fields (app : MyApp) (now : ℤ) : MyApp :=
  { app with
    last_export := now
    last_id := (app.last_id + app.panels) % 65536 }

/-- `MyApp::generate_filename`. -/
def MyApp.generate_filename (app : MyApp) (timeNow : String) (index : ℕ) : String :=
  decRepr index ++ "-" ++ timeNow ++ "I3070CE0101BZ01"

/-- The per-test lines pushed by the loop in `MyApp::generate_log`.
`fmtE` models Rust's `{:+E}` float formatting. -/
def testLines (idx : ℕ) (fmtE : ℚ → String) (p : Test × TResult) : List String :=
  match p.1.ttype with
  | TType.Pin =>
      ["\x7b@PF|" ++ (decRepr idx ++ ("%pins|" ++ (p.2.to_short ++ "|0"))),
       "\x7d"]
  | TType.Capacitor mn nom mx =>
      ["\x7b@BLOCK|" ++ (decRepr idx ++ ("%" ++ (p.1.name ++ ("|" ++ p.2.to_str)))),
       "\x7b@A-CAP|" ++ (p.2.to_short ++ ("|" ++ (fmtE p.2.measured ++
         ("\x7b@LIM3|" ++ (fmtE nom ++ ("|" ++ (fmtE mx ++ ("|" ++ (fmtE mn ++ "\x7d\x7d"))))))))),
       "\x7d"]
  | TType.Resistor mn nom mx =>
      ["\x7b@BLOCK|" ++ (decRepr idx ++ ("%" ++ (p.1.name ++ ("|" ++ p.2.to_str)))),
       "\x7b@A-RES|" ++ (p.2.to_short ++ ("|" ++ (fmtE p.2.measured ++
         ("\x7b@LIM3|" ++ (fmtE nom ++ ("|" ++ (fmtE mx ++ ("|" ++ (fmtE mn ++ "\x7d\x7d"))))))))),
       "\x7d"]

/-- The `@BTEST` record line of `MyApp::generate_log`, with its
interpolated values as arguments. -/
def btestLine (bDMC res start nowStr idxPad mbDMC : String) : String :=
  "\x7b@BTEST|" ++ (bDMC ++ ("|" ++ (res ++ ("|" ++ (start ++
    ("|000000|0|all||n|n|" ++ (nowStr ++ ("||" ++ (idxPad ++ ("|" ++ mbDMC))))))))))

/-- The list `lines` built by `MyApp::generate_log` for one board:
the `@BATCH` record, the `@BTEST` record, the per-test blocks in catalog
order, and the closing record. `start` is the `start` argument,
`nowStr` models `Local::now().format("%y%m%d%H%M%S")`. -/
def MyApp.generate_log_lines (app : MyApp) (board : Board)
    (start nowStr : String) (fmtE : ℚ → String) : List String :=
  ("\x7b@BATCH|DUMMY||0101|1||btest|" ++
      (app.start_time ++ "||i30704CE0101BZ01|DUMMY|RevA|DUMMY||D")) ::
  btestLine board.DMC board.get_result start nowStr (padNum 2 board.index)
      app.multiboard.DMC ::
  (((app.tests.zip board.results).flatMap (testLines board.index fmtE)) ++
    ["\x7d\x7d"])

/-- Rust's `lines.join("\n")`: concatenation with a newline between
consecutive elements and nothing at either end. -/
def joinLines : List String → String
  | [] => ""
  | [l] => l
  | l :: ls => l ++ "\n" ++ joinLines ls

/-- `MyApp::generate_log`. -/
def MyApp.generate_log (app : MyApp) (board : Board)
    (start nowStr : String) (fmtE : ℚ → String) : String :=
  joinLines (app.generate_log_lines board start nowStr fmtE)

/-- The log texts written by `MyApp::save_results`, one per board of the
current multiboard, in board order: the `start` string passed to
`generate_log` is `last_export` formatted (`fmtTime` models the
`format!("{}", self.last_export.format("%y%m%d%H%M%S"))` rendering). -/
def MyApp.save_results_logs (app : MyApp) (fmtTime : ℤ → String)
    (nowStr : String) (fmtE : ℚ → String) : List (List String) :=
  app.multiboard.boards.map (fun b =>
    app.generate_log_lines b (fmtTime app.last_export) nowStr fmtE)

/-- One firing of the export cycle, as in `eframe::App::update`:
`generate_multiboard`, then (after the file writes, which do not change
the state) `update_fields`. -/
def exportCycle (app : MyApp) (year doy : ℕ)
    (pd : ℕ → ℕ → ℕ) (md : ℕ → ℕ → ℚ → ℚ → ℚ) (now : ℤ) : MyApp :=
  (app.generate_multiboard year doy pd md).update_fields now

/-- Observation helper: does the record line start with token `p`? -/
def hasPre (p l : String) : Bool :=
  p.data.isPrefixOf l.data

/-- Observation helper: is the record line the single closing brace? -/
def isClose (l : String) : Bool :=
  l == "\x7d"

/-- Observation helper: split a character list at every pipe character. -/
def splitPipes : List Char → List (List Char)
  | [] => [[]]
  | c :: cs =>
      if c = '|' then [] :: splitPipes cs
      else
        match splitPipes cs with
        | [] => [[c]]
        | f :: rest => (c :: f) :: rest

/-- Observation helper: the pipe-separated fields of a record line. -/
def recFields (s : String) : List String :=
  (splitPipes s.data).map String.mk

/-- A deterministic sampler for `gen_range(lo..hi)` that always returns
the lower bound: a legal draw, since `gen_range(lo..hi)` samples from the
half-open interval `[lo, hi)`. -/
def lowSampler : ℚ → ℚ → ℚ :=
  fun lo _ => lo

/-- Constant pass/fail draw stream (per test). -/
def pd1 : ℕ → ℕ :=
  fun _ => 0

/-- Per-board constant pass/fail draw streams. -/
def pd0 : ℕ → ℕ → ℕ :=
  fun _ _ => 0

/-- Per-test measurement samplers, all the lower-bound sampler. -/
def md1 : ℕ → ℚ → ℚ → ℚ :=
  fun _ => lowSampler

/-- Per-board, per-test measurement samplers. -/
def md0 : ℕ → ℕ → ℚ → ℚ → ℚ :=
  fun _ _ => lowSampler

/-- A concrete capacitor test with limits 1 < 2 < 3. -/
def capTest1 : Test :=
  Test.mk "c01" (TType.Capacitor 1 2 3)

/-- A concrete timestamp renderer returning a fixed string. -/
def fmtBB : ℤ → String :=
  fun _ => "BB"

/-- A concrete `{:+E}` float renderer returning a fixed string. -/
def fmtM : ℚ → String :=
  fun _ => "M"

/-- A concrete base application state. -/
def appBase : MyApp :=
  { output_dir := ""
    enabled := true
    test_yield := 99
    panels := 20
    testing_time := 30
    start_time := "AA"
    last_export := 0
    last_id := 1
    tests := []
    multiboard := MultiBoard.mk "" [] }

/-- The scenario state: starting sequence 1, panel count 5. -/
def appSeq1P5 : MyApp :=
  { appBase with panels := 5 }

/-- A state whose 16-bit sequence counter is at the top of its range. -/
def app65535 : MyApp :=
  { appBase with last_id := 65535, panels := 5 }

/-- A state after some exports: `start_time` is "AA" but `last_export`
has moved on; the current multiboard holds one board. -/
def appBT : MyApp :=
  { appBase with
    last_export := 5
    multiboard := MultiBoard.mk "P" [Board.mk "D" 1 []] }

/-- A one-panel state. -/
def appP1 : MyApp :=
  { appBase with panels := 1 }

/-- A zero-yield state with the minimal nonempty catalog. -/
def appY0 : MyApp :=
  { appBase with test_yield := 0, tests := [Test.mk "pins" TType.Pin] }

/-- Constant capacitor nominal draws (from `1E-12..1E-6`). -/
def qc1 : ℕ → ℚ :=
  fun _ => 1 / 1000000000

/-- Constant capacitor minimum factors (from `0.7..0.9`). -/
def qc2 : ℕ → ℚ :=
  fun _ => 4 / 5

/-- Constant capacitor maximum factors (from `1.1..1.3`). -/
def qc3 : ℕ → ℚ :=
  fun _ => 6 / 5

/-- Constant resistor nominal draws (from `1E0..1E6`). -/
def qr1 : ℕ → ℚ :=
  fun _ => 100

/-- Constant resistor minimum factors (from `0.95..0.99`). -/
def qr2 : ℕ → ℚ :=
  fun _ => 96 / 100

/-- Constant resistor maximum factors (from `1.01..1.05`). -/
def qr3 : ℕ → ℚ :=
  fun _ => 102 / 100

theorem decAux_len_le (fuel : ℕ) :
    ∀ n k : ℕ, n ≤ fuel → n < 10 ^ k → (decAux fuel n).length ≤ k := by
  induction fuel with
  | zero =>
    intro n k hn _
    cases Nat.le_zero.mp hn
    simp [decAux]
  | succ f ih =>
    intro n k hn hk
    cases n with
    | zero => simp [decAux]
    | succ m =>
      have hk0 : k ≠ 0 := by
        rintro rfl
        simp only [pow_zero] at hk
        omega
      obtain ⟨k', rfl⟩ := Nat.exists_eq_succ_of_ne_zero hk0
      have h1 : (m + 1) / 10 ≤ f := by
        have := Nat.div_lt_self (Nat.succ_pos m) (by norm_num : 1 < 10)
        omega
      have h2 : (m + 1) / 10 < 10 ^ k' := by
        rw [Nat.div_lt_iff_lt_mul (by norm_num : 0 < 10)]
        calc m + 1 < 10 ^ (k' + 1) := hk
          _ = 10 ^ k' * 10 := by ring
      have h3 := ih ((m + 1) / 10) k' h1 h2
      simp only [decAux, List.length_append, List.length_cons, List.length_nil]
      omega

theorem decAux_len_lt (fuel : ℕ) :
    ∀ n k : ℕ, n ≤ fuel → 10 ^ k ≤ n → k < (decAux fuel n).length := by
  induction fuel with
  | zero =>
    intro n k hn hk
    cases Nat.le_zero.mp hn
    have : 0 < 10 ^ k := pow_pos (by norm_num) k
    omega
  | succ f ih =>
    intro n k hn hk
    cases n with
    | zero =>
      have : 0 < 10 ^ k := pow_pos (by norm_num) k
      omega
    | succ m =>
      cases k with
      | zero =>
        simp [decAux]
      | succ k' =>
        have h1 : (m + 1) / 10 ≤ f := by
          have := Nat.div_lt_self (Nat.succ_pos m) (by norm_num : 1 < 10)
          omega
        have h2 : 10 ^ k' ≤ (m + 1) / 10 := by
          rw [Nat.le_div_iff_mul_le (by norm_num : 0 < 10)]
          calc 10 ^ k' * 10 = 10 ^ (k' + 1) := by ring
            _ ≤ m + 1 := hk
        have h3 := ih ((m + 1) / 10) k' h1 h2
        simp only [decAux, List.length_append, List.length_cons, List.length_nil]
        omega

theorem decRepr_len_le (n k : ℕ) (hk : 1 ≤ k) (h : n < 10 ^ k) :
    (decRepr n).length ≤ k := by
  unfold decRepr
  split
  · simpa using hk
  · exact decAux_len_le n n k le_rfl h

theorem decRepr_len_eq (n k : ℕ) (h1 : 10 ^ k ≤ n) (h2 : n < 10 ^ (k + 1)) :
    (decRepr n).length = k + 1 := by
  have hn : n ≠ 0 := by
    have : 0 < 10 ^ k := pow_pos (by norm_num) k
    omega
  unfold decRepr
  rw [if_neg hn]
  have hle := decAux_len_le n n (k + 1) le_rfl h2
  have hlt := decAux_len_lt n n k le_rfl h1
  have hmk : (String.mk (decAux n n)).length = (decAux n n).length := rfl
  omega

theorem padNum_length (w n : ℕ) (h : (decRepr n).length ≤ w) :
    (padNum w n).length = w := by
  have heq : padNum w n =
      if (decRepr n).length < w then
        String.mk (List.replicate (w - (decRepr n).length) '0') ++ decRepr n
      else decRepr n := rfl
  rw [heq]
  split
  · rename_i h'
    have hmk : (String.mk (List.replicate (w - (decRepr n).length) '0')).length
        = w - (decRepr n).length := by
      show (List.replicate (w - (decRepr n).length) '0').length = _
      exact List.length_replicate _ _
    rw [String.length_append, hmk]
    omega
  · omega

theorem getResultAux_iff (rs : List TResult) :
    (getResultAux rs = "01" ↔ ∃ r ∈ rs, r.ok = false) ∧
    (getResultAux rs = "00" ↔ ∀ r ∈ rs, r.ok = true) := by
  induction rs with
  | nil =>
    refine ⟨⟨fun h => absurd h (by decide), ?_⟩, by simp [getResultAux]⟩
    rintro ⟨r, hr, -⟩
    simp at hr
  | cons r rs ih =>
    by_cases hok : r.ok = true
    · have he : getResultAux (r :: rs) = getResultAux rs := by
        simp [getResultAux, hok]
      rw [he]
      constructor
      · rw [ih.1]
        constructor
        · rintro ⟨x, hx, hxo⟩
          exact ⟨x, List.mem_cons_of_mem r hx, hxo⟩
        · rintro ⟨x, hx, hxo⟩
          rcases List.mem_cons.mp hx with rfl | hx'
          · rw [hok] at hxo
            cases hxo
          · exact ⟨x, hx', hxo⟩
      · rw [ih.2]
        constructor
        · intro hall x hx
          rcases List.mem_cons.mp hx with rfl | hx'
          · exact hok
          · exact hall x hx'
        · intro hall x hx
          exact hall x (List.mem_cons_of_mem r hx)
    · have hokf : r.ok = false := by
        cases h : r.ok
        · rfl
        · exact absurd h hok
      have he : getResultAux (r :: rs) = "01" := by
        simp [getResultAux, hokf]
      rw [he]
      refine ⟨⟨fun _ => ⟨r, List.mem_cons_self r rs, hokf⟩, fun _ => rfl⟩,
        ⟨fun h => absurd h (by decide), ?_⟩⟩
      intro hall
      have := hall r (List.mem_cons_self r rs)
      rw [hokf] at this
      cases this

/-- C4: for every board, the board-level status string is "01" iff at
least one of its results has `ok == false`, and "00" iff every result
passed. -/
theorem C4_board_status (b : Board) :
    (b.get_result = "01" ↔ ∃ r ∈ b.results, r.ok = false) ∧
    (b.get_result = "00" ↔ ∀ r ∈ b.results, r.ok = true) :=
  getResultAux_iff b.results

/-- C10: for a date whose year has 4 decimal digits (and a day-of-year of
at most 3 digits), every identifier `generate_DMC` produces has exactly
25 characters, and the 16-bit sequence value `(last_id + index) % 2^16`
is at most 65535, so its zero-padded field never exceeds 5 digits. -/
theorem C10_dmc_width (app : MyApp) (year doy index : ℕ)
    (h1 : 1000 ≤ year) (h2 : year ≤ 9999) (h3 : doy ≤ 366) :
    (app.generate_DMC year doy index).length = 25 ∧
    (app.last_id + index) % 65536 ≤ 65535 := by
  have hmod : (app.last_id + index) % 65536 < 65536 :=
    Nat.mod_lt _ (by norm_num)
  have hy : (decRepr year).length = 4 := by
    have h10 : (10 : ℕ) ^ 3 ≤ year := by norm_num; omega
    have h11 : year < 10 ^ (3 + 1) := by norm_num; omega
    exact decRepr_len_eq year 3 h10 h11
  have hd : (decRepr doy).length ≤ 3 := by
    refine decRepr_len_le doy 3 (by norm_num) ?_
    norm_num
    omega
  have hs : (decRepr ((app.last_id + index) % 65536)).length ≤ 5 := by
    refine decRepr_len_le _ 5 (by norm_num) ?_
    norm_num
    omega
  refine ⟨?_, by omega⟩
  show ("L" ++ padNum 4 year ++ padNum 3 doy ++
      padNum 5 ((app.last_id + index) % 65536) ++ "TB0001010111").length = 25
  rw [String.length_append, String.length_append, String.length_append,
    String.length_append, padNum_length 4 year (by omega),
    padNum_length 3 doy hd, padNum_length 5 _ hs]
  have hL : ("L" : String).length = 1 := rfl
  have hT : ("TB0001010111" : String).length = 12 := rfl
  omega

/-- C10 witness: a concrete identifier of the required width. -/
theorem C10_dmc_width_witness :
    (1000 ≤ 2025 ∧ 2025 ≤ 9999 ∧ 100 ≤ 366) ∧
    ((appSeq1P5.generate_DMC 2025 100 0).length = 25 ∧
     (appSeq1P5.last_id + 0) % 65536 ≤ 65535) :=
  ⟨by omega, C10_dmc_width appSeq1P5 2025 100 0 (by omega) (by omega) (by omega)⟩

/-- C8 amended: when the 16-bit counter does not overflow
(`last_id + panels < 2^16`), firing the update sets `last_export` to the
firing time and advances `last_id` by exactly the panel count (so it does
not decrease); from the scenario state (sequence 1, 5 panels) it becomes
6. In general the counter is updated modulo 2^16 and can decrease on
wrap-around. -/
theorem C8_update_fields (app : MyApp) (now : ℤ)
    (h : app.last_id + app.panels < 65536) :
    (app.update_fields now).last_export = now ∧
    (app.update_fields now).last_id = app.last_id + app.panels ∧
    app.last_id ≤ (app.update_fields now).last_id ∧
    (appSeq1P5.update_fields 0).last_id = 6 := by
  refine ⟨rfl, ?_, ?_, by decide⟩
  · show (app.last_id + app.panels) % 65536 = _
    exact Nat.mod_eq_of_lt h
  · show app.last_id ≤ (app.last_id + app.panels) % 65536
    rw [Nat.mod_eq_of_lt h]
    omega

/-- C8 witness: the amended statement at the scenario state. -/
theorem C8_update_fields_witness :
    appSeq1P5.last_id + appSeq1P5.panels < 65536 ∧
    ((appSeq1P5.update_fields 7).last_export = 7 ∧
     (appSeq1P5.update_fields 7).last_id = appSeq1P5.last_id + appSeq1P5.panels ∧
     appSeq1P5.last_id ≤ (appSeq1P5.update_fields 7).last_id ∧
     (appSeq1P5.update_fields 0).last_id = 6) :=
  ⟨by decide, C8_update_fields appSeq1P5 7 (by decide)⟩

/-- C8 counterexample: with `last_id = 65535` and 5 panels the 16-bit
counter wraps to 4 on firing: it is not advanced by the panel count and
it decreases. -/
theorem C8_cex :
    (app65535.update_fields 0).last_id = 4 ∧
    (app65535.update_fields 0).last_id < app65535.last_id ∧
    (app65535.update_fields 0).last_id ≠ app65535.last_id + app65535.panels :=
  ⟨by decide, by decide, by decide⟩

/-- C9: for every assembled panel with at least one board, the
panel-level identifier is byte-identical to the identifier of the board
at position 1 (both come from sequence offset 0). -/
theorem C9_panel_equals_first_board (app : MyApp) (year doy : ℕ)
    (pd : ℕ → ℕ → ℕ) (md : ℕ → ℕ → ℚ → ℚ → ℚ) (h : 1 ≤ app.panels) :
    ∃ b, (app.generate_multiboard year doy pd md).multiboard.boards[0]? = some b ∧
      b.index = 1 ∧
      b.DMC = (app.generate_multiboard year doy pd md).multiboard.DMC := by
  refine ⟨Board.mk (app.generate_DMC year doy 0) 1
    (app.generate_results (pd 0) (md 0)), ?_, rfl, rfl⟩
  show ((List.range app.panels).map _)[0]? = _
  rw [List.getElem?_map, List.getElem?_range (by omega)]
  rfl

/-- C9 witness: the panel/first-board identity at a concrete one-panel
state. -/
theorem C9_witness :
    1 ≤ appP1.panels ∧
    ∃ b, (appP1.generate_multiboard 2025 100 pd0 md0).multiboard.boards[0]? = some b ∧
      b.index = 1 ∧
      b.DMC = (appP1.generate_multiboard 2025 100 pd0 md0).multiboard.DMC :=
  ⟨by decide, C9_panel_equals_first_board appP1 2025 100 pd0 md0 (by decide)⟩

/-- C1 amended: the panel identifier uses sequence offset 0 and the board
at position p (1 ≤ p ≤ panel count) uses sequence offset p - 1, i.e.
sequence value `(last_id + (p - 1)) % 2^16`; hence with starting sequence
1 and panel count 5 the second export cycle's boards carry sequence
values 6..10. -/
theorem C1_board_sequence_offsets (app : MyApp) (year doy : ℕ)
    (pd : ℕ → ℕ → ℕ) (md : ℕ → ℕ → ℚ → ℚ → ℚ) (p : ℕ)
    (h1 : 1 ≤ p) (h2 : p ≤ app.panels) :
    (app.generate_multiboard year doy pd md).multiboard.DMC
        = app.generate_DMC year doy 0 ∧
    ∃ b, (app.generate_multiboard year doy pd md).multiboard.boards[p - 1]?
        = some b ∧
      b.index = p ∧
      b.DMC = "L" ++ padNum 4 year ++ padNum 3 doy ++
        padNum 5 ((app.last_id + (p - 1)) % 65536) ++ "TB0001010111" := by
  refine ⟨rfl, Board.mk (app.generate_DMC year doy (p - 1)) (p - 1 + 1)
    (app.generate_results (pd (p - 1)) (md (p - 1))), ?_,
    show p - 1 + 1 = p by omega, rfl⟩
  show ((List.range app.panels).map _)[p - 1]? = _
  rw [List.getElem?_map, List.getElem?_range (by omega)]
  rfl

/-- C1 witness: the amended statement at the scenario state, position 1. -/
theorem C1_board_sequence_offsets_witness :
    (1 ≤ 1 ∧ 1 ≤ appSeq1P5.panels) ∧
    ((appSeq1P5.generate_multiboard 2025 100 pd0 md0).multiboard.DMC
        = appSeq1P5.generate_DMC 2025 100 0 ∧
     ∃ b, (appSeq1P5.generate_multiboard 2025 100 pd0 md0).multiboard.boards[1 - 1]?
        = some b ∧
      b.index = 1 ∧
      b.DMC = "L" ++ padNum 4 2025 ++ padNum 3 100 ++
        padNum 5 ((appSeq1P5.last_id + (1 - 1)) % 65536) ++ "TB0001010111") :=
  ⟨⟨le_rfl, by decide⟩,
   C1_board_sequence_offsets appSeq1P5 2025 100 pd0 md0 1 le_rfl (by decide)⟩

/-- C1 counterexample: starting sequence 1, panel count 5 - the boards of
the second export cycle carry sequence values 6..10, not 7..11 as the
claim states (the board at position p uses offset p - 1, not p). -/
theorem C1_cex :
    ((exportCycle (exportCycle appSeq1P5 2025 100 pd0 md0 0) 2025 100 pd0 md0 0).multiboard.boards.map
        Board.DMC)
      = ["L202510000006TB0001010111", "L202510000007TB0001010111",
         "L202510000008TB0001010111", "L202510000009TB0001010111",
         "L202510000010TB0001010111"] ∧
    ((exportCycle (exportCycle appSeq1P5 2025 100 pd0 md0 0) 2025 100 pd0 md0 0).multiboard.boards.map
        Board.DMC)
      ≠ ["L202510000007TB0001010111", "L202510000008TB0001010111",
         "L202510000009TB0001010111", "L202510000010TB0001010111",
         "L202510000011TB0001010111"] :=
  ⟨by decide, by decide⟩

/-- C3 amended: under the `gen_range` contract (a draw from `lo..hi` lies
in the half-open interval `[lo, hi)`), a `Pin` measurement is always 0;
an analog measurement on pass lies in `[min, max)` - the lower bound is
attainable, not excluded - and on fail in `[0, min)`. -/
theorem C3_measurement_ranges (t : Test) (is_ok : Bool) (g : ℚ → ℚ → ℚ)
    (hg : ∀ lo hi : ℚ, lo < hi → lo ≤ g lo hi ∧ g lo hi < hi) :
    (t.ttype = TType.Pin → t.get_measurement is_ok g = 0) ∧
    (∀ mn nom mx : ℚ,
      (t.ttype = TType.Capacitor mn nom mx ∨ t.ttype = TType.Resistor mn nom mx) →
      0 < mn → mn < mx →
      (is_ok = true →
        mn ≤ t.get_measurement is_ok g ∧ t.get_measurement is_ok g < mx) ∧
      (is_ok = false →
        0 ≤ t.get_measurement is_ok g ∧ t.get_measurement is_ok g < mn)) := by
  obtain ⟨nm, ty⟩ := t
  constructor
  · intro h
    cases h
    rfl
  · rintro mn nom mx (h | h) h0 hlt <;> cases h <;>
      refine ⟨?_, ?_⟩ <;> rintro rfl
    · simpa [Test.get_measurement] using hg mn mx hlt
    · simpa [Test.get_measurement] using hg 0 mn h0
    · simpa [Test.get_measurement] using hg mn mx hlt
    · simpa [Test.get_measurement] using hg 0 mn h0

/-- C3 witness: the amended statement at a concrete capacitor test with
the lower-bound sampler (a legal `gen_range` draw). -/
theorem C3_measurement_ranges_witness :
    (∀ lo hi : ℚ, lo < hi → lo ≤ lowSampler lo hi ∧ lowSampler lo hi < hi) ∧
    ((capTest1.ttype = TType.Pin → capTest1.get_measurement true lowSampler = 0) ∧
     (∀ mn nom mx : ℚ,
       (capTest1.ttype = TType.Capacitor mn nom mx ∨
        capTest1.ttype = TType.Resistor mn nom mx) →
       0 < mn → mn < mx →
       (true = true →
         mn ≤ capTest1.get_measurement true lowSampler ∧
         capTest1.get_measurement true lowSampler < mx) ∧
       (true = false →
         0 ≤ capTest1.get_measurement true lowSampler ∧
         capTest1.get_measurement true lowSampler < mn))) :=
  ⟨fun _ _ h => ⟨le_rfl, h⟩,
   C3_measurement_ranges capTest1 true lowSampler (fun _ _ h => ⟨le_rfl, h⟩)⟩

/-- C3 counterexample: `gen_range(min..max)` samples the half-open
interval `[min, max)`, so the lower bound is a legal draw: with it, a
passing measurement on a capacitor with min 1 equals 1, which is not
strictly above min, refuting the open-interval claim. -/
theorem C3_cex :
    ((1 : ℚ) ≤ lowSampler 1 3 ∧ lowSampler 1 3 < 3) ∧
    capTest1.get_measurement true lowSampler = 1 ∧
    ¬((1 : ℚ) < capTest1.get_measurement true lowSampler) := by
  refine ⟨⟨le_rfl, show (1 : ℚ) < 3 by norm_num⟩, rfl, ?_⟩
  rw [show capTest1.get_measurement true lowSampler = 1 from rfl]
  exact lt_irrefl 1

/-- C6: given the ranges the catalog construction draws from, every
capacitor and resistor test satisfies min < nominal < max, and an export
cycle never modifies the catalog. -/
theorem C6_catalog_invariant (cnom cfmin cfmax rnom rfmin rfmax : ℕ → ℚ)
    (hc1 : ∀ i, 1 / 10 ^ 12 ≤ cnom i ∧ cnom i < 1 / 10 ^ 6)
    (hc2 : ∀ i, 7 / 10 ≤ cfmin i ∧ cfmin i < 9 / 10)
    (hc3 : ∀ i, 11 / 10 ≤ cfmax i ∧ cfmax i < 13 / 10)
    (hr1 : ∀ i, 1 ≤ rnom i ∧ rnom i < 10 ^ 6)
    (hr2 : ∀ i, 95 / 100 ≤ rfmin i ∧ rfmin i < 99 / 100)
    (hr3 : ∀ i, 101 / 100 ≤ rfmax i ∧ rfmax i < 105 / 100)
    (app : MyApp) (year doy : ℕ) (pd : ℕ → ℕ → ℕ)
    (md : ℕ → ℕ → ℚ → ℚ → ℚ) (now : ℤ) :
    (∀ t ∈ populate_tests cnom cfmin cfmax rnom rfmin rfmax,
      ∀ mn nom mx : ℚ,
        (t.ttype = TType.Capacitor mn nom mx ∨ t.ttype = TType.Resistor mn nom mx) →
        mn < nom ∧ nom < mx) ∧
    (exportCycle app year doy pd md now).tests = app.tests := by
  refine ⟨?_, rfl⟩
  intro t ht mn nom mx hty
  unfold populate_tests at ht
  rcases List.mem_cons.mp ht with rfl | ht'
  · rcases hty with h | h <;> cases h
  rcases List.mem_append.mp ht' with hcap | hres
  · obtain ⟨j, hj, rfl⟩ := List.mem_map.mp hcap
    rcases hty with h | h
    · injection h with e1 e2 e3
      subst e1
      subst e2
      subst e3
      have h0 : 0 < cnom (j + 1) :=
        lt_of_lt_of_le (by norm_num) (hc1 (j + 1)).1
      constructor
      · exact mul_lt_of_lt_one_right h0
          (lt_trans (hc2 (j + 1)).2 (by norm_num))
      · exact lt_mul_of_one_lt_right h0
          (lt_of_lt_of_le (by norm_num : (1 : ℚ) < 11 / 10) (hc3 (j + 1)).1)
    · cases h
  · obtain ⟨j, hj, rfl⟩ := List.mem_map.mp hres
    rcases hty with h | h
    · cases h
    · injection h with e1 e2 e3
      subst e1
      subst e2
      subst e3
      have h0 : 0 < rnom (j + 1) :=
        lt_of_lt_of_le (by norm_num) (hr1 (j + 1)).1
      constructor
      · exact mul_lt_of_lt_one_right h0
          (lt_trans (hr2 (j + 1)).2 (by norm_num))
      · exact lt_mul_of_one_lt_right h0
          (lt_of_lt_of_le (by norm_num : (1 : ℚ) < 101 / 100) (hr3 (j + 1)).1)

/-- C6 witness: the catalog invariant at concrete constant draws, and the
catalog unchanged across a concrete export cycle. -/
theorem C6_catalog_invariant_witness :
    ((∀ i, 1 / 10 ^ 12 ≤ qc1 i ∧ qc1 i < 1 / 10 ^ 6) ∧
     (∀ i, 7 / 10 ≤ qc2 i ∧ qc2 i < 9 / 10) ∧
     (∀ i, 11 / 10 ≤ qc3 i ∧ qc3 i < 13 / 10) ∧
     (∀ i, 1 ≤ qr1 i ∧ qr1 i < 10 ^ 6) ∧
     (∀ i, 95 / 100 ≤ qr2 i ∧ qr2 i < 99 / 100) ∧
     (∀ i, 101 / 100 ≤ qr3 i ∧ qr3 i < 105 / 100)) ∧
    ((∀ t ∈ populate_tests qc1 qc2 qc3 qr1 qr2 qr3,
       ∀ mn nom mx : ℚ,
         (t.ttype = TType.Capacitor mn nom mx ∨ t.ttype = TType.Resistor mn nom mx) →
         mn < nom ∧ nom < mx) ∧
     (exportCycle appSeq1P5 2025 100 pd0 md0 0).tests = appSeq1P5.tests) :=
  ⟨⟨fun _ => by norm_num [qc1], fun _ => by norm_num [qc2],
    fun _ => by norm_num [qc3], fun _ => by norm_num [qr1],
    fun _ => by norm_num [qr2], fun _ => by norm_num [qr3]⟩,
   C6_catalog_invariant qc1 qc2 qc3 qr1 qr2 qr3
     (fun _ => by norm_num [qc1]) (fun _ => by norm_num [qc2])
     (fun _ => by norm_num [qc3]) (fun _ => by norm_num [qr1])
     (fun _ => by norm_num [qr2]) (fun _ => by norm_num [qr3])
     appSeq1P5 2025 100 pd0 md0 0⟩

/-- C7: the pass/fail decision is `draw < yield` for a uniform draw in
[0,100); with yield 0 every test fails - and then any board whose results
come from a nonempty catalog (the constructed catalog is never empty) has
status "01" - and with yield 100 every test passes. -/
theorem C7_yield_decision (app : MyApp) (draw : ℕ) (hd : draw < 100)
    (pd : ℕ → ℕ) (md : ℕ → ℚ → ℚ → ℚ) (dmc : String) (idx : ℕ) :
    (app.should_pass draw = true ↔ draw < app.test_yield) ∧
    (app.test_yield = 0 → app.should_pass draw = false) ∧
    (app.test_yield = 100 → app.should_pass draw = true) ∧
    (app.test_yield = 0 → app.tests ≠ [] →
      Board.get_result (Board.mk dmc idx (app.generate_results pd md)) = "01") ∧
    (∀ c1 c2 c3 r1 r2 r3 : ℕ → ℚ, populate_tests c1 c2 c3 r1 r2 r3 ≠ []) := by
  refine ⟨?_, ?_, ?_, ?_, ?_⟩
  · simp [MyApp.should_pass]
  · intro h
    simp [MyApp.should_pass, h]
  · intro h
    simp [MyApp.should_pass, h]
    omega
  · intro h htne
    obtain ⟨t, ts, hts⟩ := List.exists_cons_of_ne_nil htne
    show getResultAux (app.generate_results pd md) = "01"
    unfold MyApp.generate_results
    rw [hts]
    simp [List.enum, List.enumFrom, getResultAux, MyApp.should_pass, h]
  · intro c1 c2 c3 r1 r2 r3
    simp [populate_tests]

/-- C7 witness: the decision rule at the zero-yield state. -/
theorem C7_yield_decision_witness :
    0 < 100 ∧
    ((appY0.should_pass 0 = true ↔ 0 < appY0.test_yield) ∧
     (appY0.test_yield = 0 → appY0.should_pass 0 = false) ∧
     (appY0.test_yield = 100 → appY0.should_pass 0 = true) ∧
     (appY0.test_yield = 0 → appY0.tests ≠ [] →
       Board.get_result (Board.mk "D" 1 (appY0.generate_results pd1 md1)) = "01") ∧
     (∀ c1 c2 c3 r1 r2 r3 : ℕ → ℚ, populate_tests c1 c2 c3 r1 r2 r3 ≠ [])) :=
  ⟨by omega, C7_yield_decision appY0 0 (by omega) pd1 md1 "D" 1⟩

theorem hasPre_true (p q s : String) (h : p.data <+: q.data) :
    hasPre p (q ++ s) = true := by
  unfold hasPre
  rw [String.data_append]
  rw [ List.isPrefixOf_iff_prefix]
  exact h.trans ( List.prefix_append q.data s.data)

theorem hasPre_false (p q s : String) (h1 : ¬p.data <+: q.data)
    (h2 : ¬q.data <+: p.data) : hasPre p (q ++ s) = false := by
  unfold hasPre
  rw [String.data_append]
  apply Bool.eq_false_iff.mpr
  intro hcon
  have hp : p.data <+: q.data ++ s.data := List.isPrefixOf_iff_prefix.mp hcon
  rcases List.prefix_or_prefix_of_prefix hp ( List.prefix_append q.data s.data)
      with h' | h'
  · exact h1 h'
  · exact h2 h'

theorem isClose_false (q s : String) (h : 2 ≤ q.length) :
    isClose (q ++ s) = false := by
  unfold isClose
  apply Bool.eq_false_iff.mpr
  intro hcon
  have he : q ++ s = "\x7d" := eq_of_beq hcon
  have hl : (q ++ s).length = 1 := by
    rw [he]
    rfl
  rw [String.length_append] at hl
  omega

theorem counts_pf_line (x : String) :
    isClose ("\x7b@PF|" ++ x) = false ∧
    hasPre "\x7b@BLOCK" ("\x7b@PF|" ++ x) = false ∧
    hasPre "\x7b@PF" ("\x7b@PF|" ++ x) = true ∧
    hasPre "\x7b@BATCH" ("\x7b@PF|" ++ x) = false ∧
    hasPre "\x7b@BTEST" ("\x7b@PF|" ++ x) = false :=
  ⟨isClose_false _ _ (by decide), hasPre_false _ _ _ (by decide) (by decide),
   hasPre_true _ _ _ (by decide), hasPre_false _ _ _ (by decide) (by decide),
   hasPre_false _ _ _ (by decide) (by decide)⟩

theorem counts_block_line (x : String) :
    isClose ("\x7b@BLOCK|" ++ x) = false ∧
    hasPre "\x7b@BLOCK" ("\x7b@BLOCK|" ++ x) = true ∧
    hasPre "\x7b@PF" ("\x7b@BLOCK|" ++ x) = false ∧
    hasPre "\x7b@BATCH" ("\x7b@BLOCK|" ++ x) = false ∧
    hasPre "\x7b@BTEST" ("\x7b@BLOCK|" ++ x) = false :=
  ⟨isClose_false _ _ (by decide), hasPre_true _ _ _ (by decide),
   hasPre_false _ _ _ (by decide) (by decide),
   hasPre_false _ _ _ (by decide) (by decide),
   hasPre_false _ _ _ (by decide) (by decide)⟩

theorem counts_acap_line (x : String) :
    isClose ("\x7b@A-CAP|" ++ x) = false ∧
    hasPre "\x7b@BLOCK" ("\x7b@A-CAP|" ++ x) = false ∧
    hasPre "\x7b@PF" ("\x7b@A-CAP|" ++ x) = false ∧
    hasPre "\x7b@BATCH" ("\x7b@A-CAP|" ++ x) = false ∧
    hasPre "\x7b@BTEST" ("\x7b@A-CAP|" ++ x) = false :=
  ⟨isClose_false _ _ (by decide), hasPre_false _ _ _ (by decide) (by decide),
   hasPre_false _ _ _ (by decide) (by decide),
   hasPre_false _ _ _ (by decide) (by decide),
   hasPre_false _ _ _ (by decide) (by decide)⟩

theorem counts_ares_line (x : String) :
    isClose ("\x7b@A-RES|" ++ x) = false ∧
    hasPre "\x7b@BLOCK" ("\x7b@A-RES|" ++ x) = false ∧
    hasPre "\x7b@PF" ("\x7b@A-RES|" ++ x) = false ∧
    hasPre "\x7b@BATCH" ("\x7b@A-RES|" ++ x) = false ∧
    hasPre "\x7b@BTEST" ("\x7b@A-RES|" ++ x) = false :=
  ⟨isClose_false _ _ (by decide), hasPre_false _ _ _ (by decide) (by decide),
   hasPre_false _ _ _ (by decide) (by decide),
   hasPre_false _ _ _ (by decide) (by decide),
   hasPre_false _ _ _ (by decide) (by decide)⟩

theorem counts_batch_line (x : String) :
    isClose ("\x7b@BATCH|DUMMY||0101|1||btest|" ++ x) = false ∧
    hasPre "\x7b@BLOCK" ("\x7b@BATCH|DUMMY||0101|1||btest|" ++ x) = false ∧
    hasPre "\x7b@PF" ("\x7b@BATCH|DUMMY||0101|1||btest|" ++ x) = false ∧
    hasPre "\x7b@BATCH" ("\x7b@BATCH|DUMMY||0101|1||btest|" ++ x) = true ∧
    hasPre "\x7b@BTEST" ("\x7b@BATCH|DUMMY||0101|1||btest|" ++ x) = false :=
  ⟨isClose_false _ _ (by decide), hasPre_false _ _ _ (by decide) (by decide),
   hasPre_false _ _ _ (by decide) (by decide), hasPre_true _ _ _ (by decide),
   hasPre_false _ _ _ (by decide) (by decide)⟩

theorem counts_btest_line (x : String) :
    isClose ("\x7b@BTEST|" ++ x) = false ∧
    hasPre "\x7b@BLOCK" ("\x7b@BTEST|" ++ x) = false ∧
    hasPre "\x7b@PF" ("\x7b@BTEST|" ++ x) = false ∧
    hasPre "\x7b@BATCH" ("\x7b@BTEST|" ++ x) = false ∧
    hasPre "\x7b@BTEST" ("\x7b@BTEST|" ++ x) = true :=
  ⟨isClose_false _ _ (by decide), hasPre_false _ _ _ (by decide) (by decide),
   hasPre_false _ _ _ (by decide) (by decide),
   hasPre_false _ _ _ (by decide) (by decide), hasPre_true _ _ _ (by decide)⟩

theorem counts_close_line :
    isClose "\x7d" = true ∧ hasPre "\x7b@BLOCK" "\x7d" = false ∧
    hasPre "\x7b@PF" "\x7d" = false ∧ hasPre "\x7b@BATCH" "\x7d" = false ∧
    hasPre "\x7b@BTEST" "\x7d" = false := by
  refine ⟨rfl, by decide, by decide, by decide, by decide⟩

theorem counts_end_line :
    isClose "\x7d\x7d" = false ∧ hasPre "\x7b@BLOCK" "\x7d\x7d" = false ∧
    hasPre "\x7b@PF" "\x7d\x7d" = false ∧ hasPre "\x7b@BATCH" "\x7d\x7d" = false ∧
    hasPre "\x7b@BTEST" "\x7d\x7d" = false := by
  refine ⟨by decide, by decide, by decide, by decide, by decide⟩

theorem testLines_counts (idx : ℕ) (f : ℚ → String) (p : Test × TResult) :
    (testLines idx f p).countP isClose =
      (testLines idx f p).countP (hasPre "\x7b@BLOCK") +
      (testLines idx f p).countP (hasPre "\x7b@PF") ∧
    (testLines idx f p).countP (hasPre "\x7b@BATCH") = 0 ∧
    (testLines idx f p).countP (hasPre "\x7b@BTEST") = 0 := by
  obtain ⟨⟨nm, ty⟩, r⟩ := p
  obtain ⟨b1, b2, b3, b4, b5⟩ := counts_close_line
  cases ty with
  | Pin =>
    have hT : testLines idx f (⟨Test.mk nm TType.Pin, r⟩)
        = ["\x7b@PF|" ++ (decRepr idx ++ ("%pins|" ++ (r.to_short ++ "|0"))),
           "\x7d"] := rfl
    obtain ⟨a1, a2, a3, a4, a5⟩ :=
      counts_pf_line (decRepr idx ++ ("%pins|" ++ (r.to_short ++ "|0")))
    rw [hT]
    simp [List.countP_cons, a1, a2, a3, a4, a5, b1, b2, b3, b4, b5]
  | Capacitor mn nom mx =>
    have hT : testLines idx f (⟨Test.mk nm (TType.Capacitor mn nom mx), r⟩)
        = ["\x7b@BLOCK|" ++ (decRepr idx ++ ("%" ++ (nm ++ ("|" ++ r.to_str)))),
           "\x7b@A-CAP|" ++ (r.to_short ++ ("|" ++ (f r.measured ++
             ("\x7b@LIM3|" ++ (f nom ++ ("|" ++ (f mx ++ ("|" ++ (f mn ++ "\x7d\x7d"))))))))),
           "\x7d"] := rfl
    obtain ⟨a1, a2, a3, a4, a5⟩ :=
      counts_block_line (decRepr idx ++ ("%" ++ (nm ++ ("|" ++ r.to_str))))
    obtain ⟨c1, c2, c3, c4, c5⟩ :=
      counts_acap_line (r.to_short ++ ("|" ++ (f r.measured ++
        ("\x7b@LIM3|" ++ (f nom ++ ("|" ++ (f mx ++ ("|" ++ (f mn ++ "\x7d\x7d")))))))))
    rw [hT]
    simp [List.countP_cons, a1, a2, a3, a4, a5, b1, b2, b3, b4, b5,
      c1, c2, c3, c4, c5]
  | Resistor mn nom mx =>
    have hT : testLines idx f (⟨Test.mk nm (TType.Resistor mn nom mx), r⟩)
        = ["\x7b@BLOCK|" ++ (decRepr idx ++ ("%" ++ (nm ++ ("|" ++ r.to_str)))),
           "\x7b@A-RES|" ++ (r.to_short ++ ("|" ++ (f r.measured ++
             ("\x7b@LIM3|" ++ (f nom ++ ("|" ++ (f mx ++ ("|" ++ (f mn ++ "\x7d\x7d"))))))))),
           "\x7d"] := rfl
    obtain ⟨a1, a2, a3, a4, a5⟩ :=
      counts_block_line (decRepr idx ++ ("%" ++ (nm ++ ("|" ++ r.to_str))))
    obtain ⟨c1, c2, c3, c4, c5⟩ :=
      counts_ares_line (r.to_short ++ ("|" ++ (f r.measured ++
        ("\x7b@LIM3|" ++ (f nom ++ ("|" ++ (f mx ++ ("|" ++ (f mn ++ "\x7d\x7d")))))))))
    rw [hT]
    simp [List.countP_cons, a1, a2, a3, a4, a5, b1, b2, b3, b4, b5,
      c1, c2, c3, c4, c5]

theorem body_counts (idx : ℕ) (f : ℚ → String) (ps : List (Test × TResult)) :
    (ps.flatMap (testLines idx f)).countP isClose =
      (ps.flatMap (testLines idx f)).countP (hasPre "\x7b@BLOCK") +
      (ps.flatMap (testLines idx f)).countP (hasPre "\x7b@PF") ∧
    (ps.flatMap (testLines idx f)).countP (hasPre "\x7b@BATCH") = 0 ∧
    (ps.flatMap (testLines idx f)).countP (hasPre "\x7b@BTEST") = 0 := by
  induction ps with
  | nil => simp
  | cons p ps ih =>
    rw [List.flatMap_cons]
    simp only [List.countP_append]
    have hp := testLines_counts idx f p
    omega

theorem joinLines_data_getLast (ls : List String) (x : String) (c : Char)
    (hx : x.data.getLast? = some c) :
    (joinLines (ls ++ [x])).data.getLast? = some c := by
  induction ls with
  | nil => simpa [joinLines]
  | cons a ls ih =>
    rw [List.cons_append]
    cases hl : ls ++ [x] with
    | nil => exact absurd hl (by simp)
    | cons b bs =>
      have hjoin : joinLines (a :: b :: bs) = a ++ "\n" ++ joinLines (b :: bs) := rfl
      rw [hjoin, String.data_append, List.getLast?_append]
      have hrec : (joinLines (b :: bs)).data.getLast? = some c := by
        rw [← hl]
        exact ih
      rw [hrec]
      rfl

/-- C5: every rendered board log has exactly one `@BATCH` record, exactly
one `@BTEST` record, exactly one closing-brace record per opened
`@BLOCK`/`@PF` block, its final record is the doubled closing brace, and
the joined text (newline-separated, no trailing newline) ends with a
closing brace. -/
theorem C5_log_structure (app : MyApp) (board : Board)
    (start nowStr : String) (fmtE : ℚ → String) :
    (app.generate_log_lines board start nowStr fmtE).countP
        (hasPre "\x7b@BATCH") = 1 ∧
    (app.generate_log_lines board start nowStr fmtE).countP
        (hasPre "\x7b@BTEST") = 1 ∧
    (app.generate_log_lines board start nowStr fmtE).countP isClose =
      (app.generate_log_lines board start nowStr fmtE).countP
        (hasPre "\x7b@BLOCK") +
      (app.generate_log_lines board start nowStr fmtE).countP
        (hasPre "\x7b@PF") ∧
    (app.generate_log_lines board start nowStr fmtE).getLast?
        = some "\x7d\x7d" ∧
    (app.generate_log board start nowStr fmtE).data.getLast?
        = some '\x7d' := by
  obtain ⟨a1, a2, a3, a4, a5⟩ := counts_batch_line
    (app.start_time ++ "||i30704CE0101BZ01|DUMMY|RevA|DUMMY||D")
  obtain ⟨t1, t2, t3, t4, t5⟩ := counts_btest_line
    (board.DMC ++ ("|" ++ (board.get_result ++ ("|" ++ (start ++
      ("|000000|0|all||n|n|" ++ (nowStr ++ ("||" ++ (padNum 2 board.index ++
      ("|" ++ app.multiboard.DMC))))))))))
  obtain ⟨e1, e2, e3, e4, e5⟩ := counts_end_line
  obtain ⟨hb1, hb2, hb3⟩ := body_counts board.index fmtE
    (app.tests.zip board.results)
  have hlines : app.generate_log_lines board start nowStr fmtE =
      ("\x7b@BATCH|DUMMY||0101|1||btest|" ++
        (app.start_time ++ "||i30704CE0101BZ01|DUMMY|RevA|DUMMY||D")) ::
      ("\x7b@BTEST|" ++ (board.DMC ++ ("|" ++ (board.get_result ++ ("|" ++ (start ++
        ("|000000|0|all||n|n|" ++ (nowStr ++ ("||" ++ (padNum 2 board.index ++
        ("|" ++ app.multiboard.DMC))))))))))) ::
      (((app.tests.zip board.results).flatMap (testLines board.index fmtE)) ++
        ["\x7d\x7d"]) := rfl
  have hlines2 : app.generate_log_lines board start nowStr fmtE =
      (("\x7b@BATCH|DUMMY||0101|1||btest|" ++
        (app.start_time ++ "||i30704CE0101BZ01|DUMMY|RevA|DUMMY||D")) ::
      ("\x7b@BTEST|" ++ (board.DMC ++ ("|" ++ (board.get_result ++ ("|" ++ (start ++
        ("|000000|0|all||n|n|" ++ (nowStr ++ ("||" ++ (padNum 2 board.index ++
        ("|" ++ app.multiboard.DMC))))))))))) ::
      ((app.tests.zip board.results).flatMap (testLines board.index fmtE))) ++
        ["\x7d\x7d"] := by
    rw [hlines]
    simp
  refine ⟨?_, ?_, ?_, ?_, ?_⟩
  · rw [hlines]
    simp [List.countP_cons, List.countP_append, a4, t4, e4, hb2]
  · rw [hlines]
    simp [List.countP_cons, List.countP_append, a5, t5, e5, hb3]
  · rw [hlines]
    simp [List.countP_cons, List.countP_append, a1, a2, a3, t1, t2, t3,
      e1, e2, e3, hb1]
  · rw [hlines2]
    exact List.getLast?_concat _
  · show (joinLines (app.generate_log_lines board start nowStr fmtE)).data.getLast? = _
    rw [hlines2]
    exact joinLines_data_getLast _ _ _ (by decide)

theorem splitPipes_append (A R : List Char) (h : '|' ∉ A) :
    splitPipes (A ++ '|' :: R) = A :: splitPipes R := by
  induction A with
  | nil =>
    show splitPipes ('|' :: R) = [] :: splitPipes R
    simp [splitPipes]
  | cons c cs ih =>
    have hc : c ≠ '|' := by
      intro he
      subst he
      exact h (List.mem_cons_self _ _)
    have hcs : '|' ∉ cs := by
      intro hm
      exact h (List.mem_cons_of_mem _ hm)
    rw [List.cons_append]
    have hstep : splitPipes (c :: (cs ++ '|' :: R)) =
        if c = '|' then [] :: splitPipes (cs ++ '|' :: R)
        else
          match splitPipes (cs ++ '|' :: R) with
          | [] => [[c]]
          | f :: rest => (c :: f) :: rest := rfl
    rw [hstep, if_neg hc, ih hcs]

theorem getResult_cases (rs : List TResult) :
    getResultAux rs = "00" ∨ getResultAux rs = "01" := by
  induction rs with
  | nil => exact Or.inl rfl
  | cons r rs ih =>
    by_cases hok : r.ok = true
    · have : getResultAux (r :: rs) = getResultAux rs := by
        simp [getResultAux, hok]
      rw [this]
      exact ih
    · have hokf : r.ok = false := by
        cases h : r.ok
        · rfl
        · exact absurd h hok
      have : getResultAux (r :: rs) = "01" := by
        simp [getResultAux, hokf]
      rw [this]
      exact Or.inr rfl

theorem recFields_btestLine (bDMC res start nowStr idxPad mbDMC : String)
    (h1 : '|' ∉ bDMC.data) (h2 : '|' ∉ res.data) (h3 : '|' ∉ start.data) :
    (recFields (btestLine bDMC res start nowStr idxPad mbDMC))[3]? = some start := by
  have e1 : ("\x7b@BTEST|" : String).data = "\x7b@BTEST".data ++ ['|'] := by decide
  have e2 : ("|" : String).data = ['|'] := by decide
  have e3 : ("|000000|0|all||n|n|" : String).data
      = '|' :: ("000000|0|all||n|n|" : String).data := by decide
  have hdata : (btestLine bDMC res start nowStr idxPad mbDMC).data
      = "\x7b@BTEST".data ++ '|' :: (bDMC.data ++ '|' :: (res.data ++ '|' ::
        (start.data ++ '|' :: (("000000|0|all||n|n|" : String).data ++
          (nowStr.data ++ (("||" : String).data ++ (idxPad.data ++
            ('|' :: mbDMC.data)))))))) := by
    simp only [btestLine, String.data_append, e1, e2, e3, List.append_assoc,
      List.singleton_append, List.cons_append, List.nil_append]
  unfold recFields
  rw [hdata]
  rw [splitPipes_append _ _ (by decide), splitPipes_append _ _ h1,
    splitPipes_append _ _ h2, splitPipes_append _ _ h3]
  rfl

/-- C2 amended: in every log written by `save_results`, the fourth field
of the `@BTEST` record is the formatted `last_export` timestamp (the
`start` argument computed at save time), not the process-start constant
`start_time` that appears in the `@BATCH` record; the two coincide only
while those timestamps render identically. -/
theorem C2_btest_start_field (app : MyApp) (fmtTime : ℤ → String)
    (nowStr : String) (fmtE : ℚ → String)
    (hD : ∀ b ∈ app.multiboard.boards, '|' ∉ b.DMC.data)
    (hS : '|' ∉ (fmtTime app.last_export).data) :
    ∀ ls ∈ app.save_results_logs fmtTime nowStr fmtE,
      ∃ l, ls[1]? = some l ∧
        (recFields l)[3]? = some (fmtTime app.last_export) := by
  intro ls hls
  obtain ⟨b, hb, rfl⟩ := List.mem_map.mp hls
  refine ⟨btestLine b.DMC b.get_result (fmtTime app.last_export) nowStr
    (padNum 2 b.index) app.multiboard.DMC,
    by simp [MyApp.generate_log_lines], ?_⟩
  refine recFields_btestLine _ _ _ _ _ _ (hD b hb) ?_ hS
  show '|' ∉ (getResultAux b.results).data
  rcases getResult_cases b.results with h | h <;> rw [h] <;> decide

/-- C2 witness: the amended statement at a concrete state whose
`last_export` renders as "BB". -/
theorem C2_btest_start_field_witness :
    (∀ b ∈ appBT.multiboard.boards, '|' ∉ b.DMC.data) ∧
    ('|' ∉ (fmtBB appBT.last_export).data) ∧
    (∀ ls ∈ appBT.save_results_logs fmtBB "NOW" fmtM,
      ∃ l, ls[1]? = some l ∧
        (recFields l)[3]? = some (fmtBB appBT.last_export)) :=
  ⟨by decide, by decide,
   C2_btest_start_field appBT fmtBB "NOW" fmtM (by decide) (by decide)⟩

/-- C2 counterexample: at a state where the process-start constant is
"AA" but `last_export` renders as "BB", the written log's `@BTEST` record
carries "BB" in its fourth field while the `@BATCH` record carries "AA":
the fourth field does not equal the batch-start constant. -/
theorem C2_cex :
    appBT.start_time = "AA" ∧
    appBT.save_results_logs fmtBB "NOW" fmtM =
      [["\x7b@BATCH|DUMMY||0101|1||btest|AA||i30704CE0101BZ01|DUMMY|RevA|DUMMY||D",
        "\x7b@BTEST|D|00|BB|000000|0|all||n|n|NOW||01|P",
        "\x7d\x7d"]] ∧
    (recFields "\x7b@BTEST|D|00|BB|000000|0|all||n|n|NOW||01|P")[3]? = some "BB" ∧
    "BB" ≠ appBT.start_time :=
  ⟨rfl, by decide, by decide, by decide⟩

end ICT
